import Mathlib

/-!
Verification of the client-side connection and request-discipline layer of the
forex trading dashboard: the bounded request queue (`src/utils/requestQueue.ts`),
the staggered polling scheduler, and the push-event (socket) client code in the
log/dashboard components.  Each definition shallowly embeds the corresponding
TypeScript function; theorems settle the specification's claims about them.
-/

namespace RequestQueue

/-- Configuration constant `maxConcurrentRequests = 3` from `RequestQueue`. -/
def maxConcurrentRequests : Nat := 3

/-- Configuration constant `maxQueueSize = 10` from `RequestQueue`. -/
def maxQueueSize : Nat := 10

/-- Configuration constant `requestTimeout = 30000` ms from `RequestQueue`. -/
def requestTimeout : Nat := 30000

/-- State of the `RequestQueue` singleton.  Each queued request is identified by
its id (a `Nat` stands in for the string id); `queue` is the FIFO waiting list
(head = oldest), `inFlight` holds the ids of dispatched, not-yet-settled
requests (its length is `activeRequests`), and `invoked` records every id whose
task function `request.request()` has ever been called. -/
structure QueueState where
  queue : List Nat
  inFlight : List Nat
  invoked : List Nat
deriving DecidableEq, Repr

/-- The empty initial state of the queue singleton. -/
def initState : QueueState := ⟨[], [], []⟩

/-- `RequestQueue.processQueue`: returns unchanged when
`activeRequests >= maxConcurrentRequests` or the waiting list is empty;
otherwise shifts the head of the waiting list, increments `activeRequests`
(models moving the id into `inFlight`) and invokes its task. -/
def processQueue (s : QueueState) : QueueState :=
  if s.inFlight.length ≥ maxConcurrentRequests then s
  else
    match s.queue with
    | [] => s
    | r :: rest =>
      { queue := rest, inFlight := s.inFlight ++ [r], invoked := s.invoked ++ [r] }

/-- Immediate outcome of `RequestQueue.addRequest`: either admitted into the
waiting list, or rejected at once with the "Request queue is full" error. -/
inductive SubmitResult where
  | admitted
  | rejectedQueueFull
deriving DecidableEq, Repr

/-- `RequestQueue.addRequest`: if `queue.length >= maxQueueSize` the promise
rejects immediately (`new Error('Request queue is full')`) and nothing else
happens; otherwise the entry is pushed to the tail of the waiting list and
`processQueue` runs. -/
def addRequest (s : QueueState) (id : Nat) : SubmitResult × QueueState :=
  if s.queue.length ≥ maxQueueSize then (.rejectedQueueFull, s)
  else (.admitted, processQueue { s with queue := s.queue ++ [id] })

/-- A dispatched request settling (the `finally` block of `processQueue`):
`activeRequests` decrements and `processQueue` runs again (after the 100ms
`setTimeout`, which does not change which state is reached). -/
def completeRequest (s : QueueState) (id : Nat) : QueueState :=
  if id ∈ s.inFlight then
    processQueue { s with inFlight := s.inFlight.erase id }
  else s

/-- The externally observable events driving the queue: a `submit`
(`addRequest`) call, or a dispatched request settling. -/
inductive QueueEvent where
  | submit (id : Nat)
  | complete (id : Nat)
deriving DecidableEq, Repr

/-- One step of the queue system. -/
def stepQueue (s : QueueState) : QueueEvent → QueueState
  | .submit id => (addRequest s id).2
  | .complete id => completeRequest s id

/-- Run the queue over a sequence of events. -/
def runQueue (s : QueueState) (es : List QueueEvent) : QueueState :=
  es.foldl stepQueue s

/-- The core size invariant of the queue state. -/
def queueInv (s : QueueState) : Prop :=
  s.inFlight.length ≤ maxConcurrentRequests ∧ s.queue.length ≤ maxQueueSize

theorem processQueue_inv {s : QueueState} (h : queueInv s) : queueInv (processQueue s) := by
  obtain ⟨h1, h2⟩ := h
  unfold processQueue
  split
  · exact ⟨h1, h2⟩
  · rename_i hlt
    push_neg at hlt
    cases hq : s.queue with
    | nil => exact ⟨h1, h2⟩
    | cons r rest =>
      refine ⟨?_, ?_⟩
      · show (s.inFlight ++ [r]).length ≤ maxConcurrentRequests
        simp only [List.length_append, List.length_singleton]
        omega
      · show rest.length ≤ maxQueueSize
        have : s.queue.length = rest.length + 1 := by simp [hq]
        omega

theorem stepQueue_inv {s : QueueState} (e : QueueEvent) (h : queueInv s) :
    queueInv (stepQueue s e) := by
  cases e with
  | submit id =>
    simp only [stepQueue, addRequest]
    split
    · exact h
    · rename_i hfull
      push_neg at hfull
      apply processQueue_inv
      obtain ⟨h1, h2⟩ := h
      exact ⟨h1, by simp; omega⟩
  | complete id =>
    simp only [stepQueue, completeRequest]
    split
    · apply processQueue_inv
      obtain ⟨h1, h2⟩ := h
      refine ⟨?_, h2⟩
      calc (s.inFlight.erase id).length ≤ s.inFlight.length := List.length_erase_le _ _
        _ ≤ maxConcurrentRequests := h1
    · exact h

theorem runQueue_inv {s : QueueState} (es : List QueueEvent) (h : queueInv s) :
    queueInv (runQueue s es) := by
  induction es generalizing s with
  | nil => exact h
  | cons e es ih => exact ih (stepQueue_inv e h)

/-- Ids never in the waiting list and never invoked stay that way, as long as
the id is not submitted again. -/
theorem notInvoked_run {s : QueueState} (id : Nat) (es : List QueueEvent)
    (hq : id ∉ s.queue) (hi : id ∉ s.invoked)
    (hes : ∀ e ∈ es, e ≠ QueueEvent.submit id) :
    id ∉ (runQueue s es).queue ∧ id ∉ (runQueue s es).invoked := by
  have key : ∀ t : QueueState, id ∉ t.queue → id ∉ t.invoked →
      id ∉ (processQueue t).queue ∧ id ∉ (processQueue t).invoked := by
    intro t htq hti
    unfold processQueue
    split
    · exact ⟨htq, hti⟩
    · cases hq' : t.queue with
      | nil => exact ⟨htq, hti⟩
      | cons r rest =>
        have hr : id ≠ r := by
          intro h; apply htq; rw [hq', h]; exact List.mem_cons_self _ _
        have hrest : id ∉ rest := by
          intro h; apply htq; rw [hq']; exact List.mem_cons_of_mem _ h
        exact ⟨hrest, by simp [hti, hr]⟩
  induction es generalizing s with
  | nil => exact ⟨hq, hi⟩
  | cons e es ih =>
    have he : e ≠ QueueEvent.submit id := hes e (List.mem_cons_self _ _)
    have hes' : ∀ e' ∈ es, e' ≠ QueueEvent.submit id := fun e' h' => hes e' (List.mem_cons_of_mem _ h')
    cases e with
    | submit id' =>
      have hid : id' ≠ id := by intro h; exact he (by rw [h])
      simp only [runQueue, List.foldl_cons, stepQueue, addRequest]
      split
      · exact ih hq hi hes'
      · have h1 : id ∉ s.queue ++ [id'] := by
          simp [hq]; intro h; exact hid h.symm
        obtain ⟨k1, k2⟩ := key { s with queue := s.queue ++ [id'] } h1 hi
        exact ih k1 k2 hes'
    | complete id' =>
      simp only [runQueue, List.foldl_cons, stepQueue, completeRequest]
      split
      · obtain ⟨k1, k2⟩ := key { s with inFlight := s.inFlight.erase id' } hq hi
        exact ih k1 k2 hes'
      · exact ih hq hi hes'

end RequestQueue

namespace RequestQueue

/-- The timeout rejection message
`new Error(`Request ... timed out after ...ms`)` from `processQueue`. -/
def timeoutMessage (id : Nat) : String :=
  s!"Request {id} timed out after {requestTimeout}ms"

/-- Observable timeline of one dispatched request. -/
structure DispatchTrace where
  callerTimedOut : Bool
  callerErrorMessage : Option String
  callerSettledAt : Nat
  decrementTimes : List Nat
  taskSettlesAt : Nat
deriving DecidableEq, Repr

/-- Semantics of the body of `processQueue` for one dispatched request whose
task settles after `taskDuration` ms: `Promise.race([request.request(),
timeoutPromise])` settles at the earlier of `taskDuration` and
`requestTimeout`; when the timer wins, the `catch` rejects the caller's
promise with the timeout error; the `finally` block (the single
`activeRequests--`) runs when the race settles; the underlying task is never
cancelled and still settles at `taskDuration`. -/
def dispatchTrace (id taskDuration : Nat) : DispatchTrace :=
  if requestTimeout < taskDuration then
    { callerTimedOut := true
      callerErrorMessage := some (timeoutMessage id)
      callerSettledAt := requestTimeout
      decrementTimes := [requestTimeout]
      taskSettlesAt := taskDuration }
  else
    { callerTimedOut := false
      callerErrorMessage := none
      callerSettledAt := taskDuration
      decrementTimes := [taskDuration]
      taskSettlesAt := taskDuration }

end RequestQueue

namespace StaggeredPolling

/-- `PollingConfig` from the staggered polling module. -/
structure PollingConfig where
  component : String
  baseInterval : ℚ
  staggerOffset : ℚ
deriving DecidableEq, Repr

/-- The two `Map`s held by the `StaggeredPolling` singleton: `componentConfigs`
and `activeIntervals` (a timer handle is represented by the period of the
interval it fires at). Modelled as association lists with unique keys. -/
structure PollingState where
  componentConfigs : List (String × PollingConfig)
  activeIntervals : List (String × ℚ)
deriving DecidableEq, Repr

/-- The singleton's initial state: both maps empty. -/
def emptyState : PollingState := ⟨[], []⟩

/-- `Map.set`: replaces the value at an existing key in place, else appends. -/
def mapSet {β : Type} : List (String × β) → String → β → List (String × β)
  | [], k, v => [(k, v)]
  | (k', v') :: rest, k, v =>
    if k' = k then (k, v) :: rest else (k', v') :: mapSet rest k v

/-- `Map.delete`: removes the entry at the key, if present. -/
def mapDelete {β : Type} : List (String × β) → String → List (String × β)
  | [], _ => []
  | (k', v') :: rest, k =>
    if k' = k then rest else (k', v') :: mapDelete rest k

/-- `Map.get`: the value at the key, if present. -/
def mapGet {β : Type} : List (String × β) → String → Option β
  | [], _ => none
  | (k', v') :: rest, k => if k' = k then some v' else mapGet rest k

/-- `registerComponent`: computes
`staggerOffset = Math.random() * (baseInterval * 0.3)` — the random draw `r`
is passed as a parameter of the embedding — and stores the config keyed by
the component name, overwriting any prior registration. -/
def registerComponent (s : PollingState) (component : String) (baseInterval r : ℚ) :
    PollingState × PollingConfig :=
  let staggerOffset := r * (baseInterval * (3 / 10))
  let config : PollingConfig := ⟨component, baseInterval, staggerOffset⟩
  ({ s with componentConfigs := mapSet s.componentConfigs component config }, config)

/-- `stopPolling`: clears the interval for the component if one is active and
removes it from `activeIntervals`; `componentConfigs` is untouched. -/
def stopPolling (s : PollingState) (component : String) : PollingState :=
  { s with activeIntervals := mapDelete s.activeIntervals component }

/-- `startPolling`: when the component has no registration, logs a warning and
returns without starting (0 immediate callback invocations); otherwise stops
any existing interval first, invokes the callback once immediately and
synchronously (the returned count), and installs a repeating interval of
period `baseInterval + staggerOffset`. -/
def startPolling (s : PollingState) (component : String) : PollingState × Nat :=
  match mapGet s.componentConfigs component with
  | none => (s, 0)
  | some config =>
    let s1 := stopPolling s component
    let staggeredInterval := config.baseInterval + config.staggerOffset
    ({ s1 with activeIntervals := mapSet s1.activeIntervals component staggeredInterval }, 1)

/-- `stopAllPolling`: clears every active interval. -/
def stopAllPolling (s : PollingState) : PollingState :=
  { s with activeIntervals := [] }

/-- `getPollingStatus`: lists every registration (component, base interval,
staggered interval); it reads `componentConfigs`, not `activeIntervals`. -/
def getPollingStatus (s : PollingState) : List (String × ℚ × ℚ) :=
  s.componentConfigs.map (fun p => (p.1, p.2.baseInterval, p.2.baseInterval + p.2.staggerOffset))

end StaggeredPolling

namespace BotLogsSocket

/-- The exponential backoff of `connectSocket` in `BotLogs.tsx`:
`Math.min(1000 * Math.pow(2, connectionAttempts), 10000)`, used both by the
`connect_error` handler and by the transport-failure branch of the
`disconnect` handler to schedule the reconnect timer. -/
def backoffDelay (connectionAttempts : Nat) : Nat :=
  min (1000 * 2 ^ connectionAttempts) 10000

end BotLogsSocket

namespace SocketClient

/-- `MAX_CONNECTION_ATTEMPTS = 5` from the manual-reconnect socket component. -/
def MAX_CONNECTION_ATTEMPTS : Nat := 5

/-- `RETRY_DELAY = 2000` ms from the manual-reconnect socket component. -/
def RETRY_DELAY : Nat := 2000

/-- The connection state the component tracks: the `connectionAttempts`
counter and the `isConnected` flag. -/
structure ClientState where
  connectionAttempts : Nat
  isConnected : Bool
deriving DecidableEq, Repr

/-- Events driving the manual-reconnect socket client: the `initializeSocket`
effect, the transport `connect` / `connect_error` / `disconnect` events, and
the user clicking the Retry button (`handleReconnect`). -/
inductive ClientEvent where
  | initializeSocket
  | connectSuccess
  | connectError
  | disconnectEvent
  | manualReconnect
deriving DecidableEq, Repr

/-- One step of the client.  The returned `Bool` reports whether the event
started or scheduled a connection attempt.  Distilled from the handlers:
`initializeSocket` returns early (no socket, no connect) once
`connectionAttempts >= MAX_CONNECTION_ATTEMPTS`, else opens an auto-connecting
socket; `connect` resets the counter to 0; `connect_error` increments the
counter and schedules `newSocket.connect()` after `RETRY_DELAY` only while
`connectionAttempts < MAX_CONNECTION_ATTEMPTS - 1` (pre-increment value), so no
retry is ever scheduled once the counter reaches the maximum; `disconnect`
only clears the status interval; `handleReconnect` resets the counter to 0 and
calls `socket.connect()`. -/
def clientStep (s : ClientState) : ClientEvent → ClientState × Bool
  | .initializeSocket =>
    if s.connectionAttempts ≥ MAX_CONNECTION_ATTEMPTS then (s, false)
    else ({ s with isConnected := false }, true)
  | .connectSuccess => (⟨0, true⟩, false)
  | .connectError =>
    (⟨s.connectionAttempts + 1, false⟩,
     decide (s.connectionAttempts < MAX_CONNECTION_ATTEMPTS - 1))
  | .disconnectEvent => ({ s with isConnected := false }, false)
  | .manualReconnect => (⟨0, false⟩, true)

/-- Run the client over a list of events, collecting for each event whether it
started or scheduled a connection attempt. -/
def clientRun (s : ClientState) : List ClientEvent → ClientState × List Bool
  | [] => (s, [])
  | e :: es =>
    ((clientRun (clientStep s e).1 es).1,
      (clientStep s e).2 :: (clientRun (clientStep s e).1 es).2)

/-- The give-up condition: the attempt counter has reached the maximum. -/
def givingUp (s : ClientState) : Prop :=
  s.connectionAttempts ≥ MAX_CONNECTION_ATTEMPTS

instance (s : ClientState) : Decidable (givingUp s) := by
  unfold givingUp; infer_instance

end SocketClient

namespace MLDashboard

/-- `MLInsight` from the ML insights dashboard component. -/
structure MLInsight where
  timestamp : String
  pair : String
  prediction : String
  confidence : ℚ
  trade_quality : ℚ
  market_regime : String
  volatility : ℚ
  volume_ratio : ℚ
  rsi : ℚ
  macd : ℚ
  sma_cross : String
  ensemble_agreement : ℚ
deriving DecidableEq, Repr

/-- `LearningProgress` from the ML insights dashboard component. -/
structure LearningProgress where
  total_trades : Nat
  total_retrains : Nat
  last_retrain : Option String
  best_accuracy : ℚ
  current_win_rate : ℚ
  performance_improvement : ℚ
  retrain_frequency : Nat
  next_retrain_in : Nat
deriving DecidableEq, Repr

/-- `FeatureImportance` from the ML insights dashboard component. -/
structure FeatureImportance where
  feature : String
  importance : ℚ
  category : String
  description : String
deriving DecidableEq, Repr

/-- `ModelPerformance` from the ML insights dashboard component. -/
structure ModelPerformance where
  model : String
  accuracy : ℚ
  model_precision : ℚ
  model_recall : ℚ
  f1_score : ℚ
  last_updated : String
deriving DecidableEq, Repr

/-- The four pieces of dashboard state written by the `ml_dashboard_update`
handler: `mlInsights`, `learningProgress`, `featureImportance`,
`modelPerformance`. -/
structure DashboardState where
  mlInsights : List MLInsight
  learningProgress : Option LearningProgress
  featureImportance : List FeatureImportance
  modelPerformance : List ModelPerformance
deriving DecidableEq, Repr

/-- The `data` object of an `ml_dashboard_update` payload; each field may be
absent (JS falsy handled by `||` defaults). -/
structure UpdateData where
  ml_insights : Option (List MLInsight)
  learning_summary : Option LearningProgress
  total_trades : Option Nat
  feature_importance : Option (List FeatureImportance)
  model_performance : Option (List ModelPerformance)
deriving DecidableEq, Repr

/-- An `ml_dashboard_update` payload: a `pair` tag and an optional `data`
object (`payload.data || {}`). -/
structure UpdatePayload where
  pair : String
  data : Option UpdateData
deriving DecidableEq, Repr

/-- The fallback learning summary built in the handler when
`data.learning_summary` is absent. -/
def defaultLearningProgress (total_trades : Nat) : LearningProgress :=
  ⟨total_trades, 0, none, 0, 0, 0, 10, 10⟩

/-- The empty `data` object used when `payload.data` is falsy. -/
def emptyUpdateData : UpdateData := ⟨none, none, none, none, none⟩

/-- The `ml_dashboard_update` handler:
`if (!payload || payload.pair !== selectedPair) return;` then sets the four
dashboard states from `payload.data || {}` with their defaults. -/
def mlDashboardUpdate (selectedPair : String) (payload : Option UpdatePayload)
    (s : DashboardState) : DashboardState :=
  match payload with
  | none => s
  | some p =>
    if p.pair ≠ selectedPair then s
    else
      let data := p.data.getD emptyUpdateData
      { mlInsights := data.ml_insights.getD []
        learningProgress := some (data.learning_summary.getD
          (defaultLearningProgress (data.total_trades.getD 0)))
        featureImportance := data.feature_importance.getD []
        modelPerformance := data.model_performance.getD [] }

end MLDashboard

namespace BotLogFeed

/-- A `bot_log` event payload. -/
structure BotLog where
  timestamp : String
  level : String
  message : String
deriving DecidableEq, Repr

/-- The `bot_log` handler: `setLogs(prevLogs => [...prevLogs, log].slice(-100))`.
`Array.prototype.slice(-100)` keeps the last 100 elements (all of them when
there are fewer), which is `List.rtake _ 100`. -/
def botLogStep (logs : List BotLog) (log : BotLog) : List BotLog :=
  (logs ++ [log]).rtake 100

/-- The log list after a sequence of `bot_log` events, starting from the
initial empty list. -/
def runBotLogs (events : List BotLog) : List BotLog :=
  events.foldl botLogStep []

end BotLogFeed

namespace RequestQueue

/-- C1: For every sequence of submit calls to the bounded request queue, the
number of tasks dispatched and not yet settled never exceeds
`maxConcurrentRequests` (3), and the waiting-list length never exceeds
`maxQueueSize` (10), in every reachable state (both counts are naturals, so
the lower bound 0 holds by typing). -/
theorem requestQueue_bounds (es : List QueueEvent) :
    (runQueue initState es).inFlight.length ≤ maxConcurrentRequests ∧
      (runQueue initState es).queue.length ≤ maxQueueSize :=
  runQueue_inv es ⟨by decide, by decide⟩

/-- C2: A submit (`addRequest`) call made while the waiting list already holds
at least `maxQueueSize` entries rejects immediately with the queue-full error,
leaves the queue state unchanged, and the submitted task is never invoked in
any later state, no matter what events follow (provided the fresh id is not
resubmitted). -/
theorem addRequest_queueFull_rejects (s : QueueState) (id : Nat) (es : List QueueEvent)
    (hfull : s.queue.length ≥ maxQueueSize)
    (hq : id ∉ s.queue) (hi : id ∉ s.invoked)
    (hes : ∀ e ∈ es, e ≠ QueueEvent.submit id) :
    (addRequest s id).1 = SubmitResult.rejectedQueueFull ∧
      (addRequest s id).2 = s ∧
      id ∉ (runQueue (addRequest s id).2 es).invoked := by
  have h1 : addRequest s id = (SubmitResult.rejectedQueueFull, s) := by
    unfold addRequest
    rw [if_pos hfull]
  refine ⟨by rw [h1], by rw [h1], ?_⟩
  rw [h1]
  exact (notInvoked_run id es hq hi hes).2

theorem addRequest_queueFull_rejects_witness :
    (⟨[11, 12, 13, 14, 15, 16, 17, 18, 19, 20], [1, 2, 3], [1, 2, 3]⟩ :
        QueueState).queue.length ≥ maxQueueSize ∧
      ((addRequest ⟨[11, 12, 13, 14, 15, 16, 17, 18, 19, 20], [1, 2, 3], [1, 2, 3]⟩ 99).1 =
          SubmitResult.rejectedQueueFull ∧
        (addRequest ⟨[11, 12, 13, 14, 15, 16, 17, 18, 19, 20], [1, 2, 3], [1, 2, 3]⟩ 99).2 =
          ⟨[11, 12, 13, 14, 15, 16, 17, 18, 19, 20], [1, 2, 3], [1, 2, 3]⟩ ∧
        99 ∉ (runQueue
          (addRequest ⟨[11, 12, 13, 14, 15, 16, 17, 18, 19, 20], [1, 2, 3], [1, 2, 3]⟩ 99).2
          [QueueEvent.complete 1]).invoked) :=
  ⟨by decide,
    addRequest_queueFull_rejects _ 99 [QueueEvent.complete 1]
      (by decide) (by decide) (by decide) (by decide)⟩

/-- C3 counterexample: submitting 13 tasks (none of which settles) reaches a
state with 3 tasks in flight and 10 waiting, so waiting + in-flight = 13
exceeds the configured capacity `maxQueueSize = 10`; the queue-size check in
`addRequest` only bounds the waiting list, not waiting + in-flight. -/
theorem waiting_plus_inFlight_exceeds_capacity :
    ¬ ((runQueue initState ((List.range 13).map QueueEvent.submit)).queue.length +
        (runQueue initState ((List.range 13).map QueueEvent.submit)).inFlight.length ≤
          maxQueueSize) := by
  decide

/-- C3 (amended): in every reachable state, the waiting list holds at most
`maxQueueSize` entries and at most `maxConcurrentRequests` tasks are in
flight, so waiting + in-flight never exceeds
`maxQueueSize + maxConcurrentRequests` (13) — not `maxQueueSize` itself. -/
theorem waiting_plus_inFlight_bounded (es : List QueueEvent) :
    (runQueue initState es).queue.length + (runQueue initState es).inFlight.length ≤
      maxQueueSize + maxConcurrentRequests := by
  obtain ⟨h1, h2⟩ := @runQueue_inv initState es ⟨by decide, by decide⟩
  omega

/-- C4 counterexample: for a dispatched task of duration 40000 ms against the
30000 ms timeout, the single `activeRequests` decrement (the `finally` block)
runs when the race settles at 30000 ms, not when the underlying task settles
at 40000 ms, so the decrement times differ from `[taskSettlesAt]`. -/
theorem timeout_decrement_not_at_task_settle :
    (dispatchTrace 7 40000).decrementTimes ≠ [(dispatchTrace 7 40000).taskSettlesAt] := by
  decide

/-- C4 (amended): for every dispatched task whose promise takes longer than
`requestTimeout` to settle, the caller's promise rejects with the timeout
error, the queue does not cancel the underlying task (it still settles at its
own duration), and `activeRequests` decrements exactly once — at the moment
the timeout race settles (`requestTimeout`), not when the underlying task
eventually settles. -/
theorem timeout_behavior (id taskDuration : Nat) (h : requestTimeout < taskDuration) :
    (dispatchTrace id taskDuration).callerTimedOut = true ∧
      (dispatchTrace id taskDuration).callerErrorMessage = some (timeoutMessage id) ∧
      (dispatchTrace id taskDuration).taskSettlesAt = taskDuration ∧
      (dispatchTrace id taskDuration).decrementTimes = [requestTimeout] := by
  unfold dispatchTrace
  rw [if_pos h]
  exact ⟨rfl, rfl, rfl, rfl⟩

theorem timeout_behavior_witness :
    requestTimeout < 40000 ∧
      ((dispatchTrace 7 40000).callerTimedOut = true ∧
        (dispatchTrace 7 40000).callerErrorMessage = some (timeoutMessage 7) ∧
        (dispatchTrace 7 40000).taskSettlesAt = 40000 ∧
        (dispatchTrace 7 40000).decrementTimes = [requestTimeout]) :=
  ⟨by decide, timeout_behavior 7 40000 (by decide)⟩

end RequestQueue

namespace StaggeredPolling

theorem mapGet_mapSet_self {β : Type} (m : List (String × β)) (k : String) (v : β) :
    mapGet (mapSet m k v) k = some v := by
  induction m with
  | nil => simp [mapSet, mapGet]
  | cons p rest ih =>
    obtain ⟨k', v'⟩ := p
    by_cases h : k' = k
    · simp [mapSet, mapGet, h]
    · simp [mapSet, mapGet, h, ih]

theorem mapGet_eq_none_of_not_mem {β : Type} (m : List (String × β)) (k : String)
    (h : k ∉ m.map Prod.fst) : mapGet m k = none := by
  induction m with
  | nil => rfl
  | cons p rest ih =>
    obtain ⟨k', v'⟩ := p
    simp only [List.map_cons, List.mem_cons] at h
    push_neg at h
    have hk : k' ≠ k := fun hh => h.1 hh.symm
    simp [mapGet, hk, ih h.2]

theorem not_mem_keys_mapDelete {β : Type} (m : List (String × β)) (k : String)
    (h : (m.map Prod.fst).Nodup) : k ∉ (mapDelete m k).map Prod.fst := by
  induction m with
  | nil => simp [mapDelete]
  | cons p rest ih =>
    obtain ⟨k', v'⟩ := p
    simp only [List.map_cons, List.nodup_cons] at h
    by_cases hk : k' = k
    · subst hk
      simpa [mapDelete] using h.1
    · simp only [mapDelete, if_neg hk, List.map_cons, List.mem_cons]
      push_neg
      exact ⟨fun hh => hk hh.symm, ih h.2⟩

theorem mapDelete_of_not_mem {β : Type} (m : List (String × β)) (k : String)
    (h : k ∉ m.map Prod.fst) : mapDelete m k = m := by
  induction m with
  | nil => rfl
  | cons p rest ih =>
    obtain ⟨k', v'⟩ := p
    simp only [List.map_cons, List.mem_cons] at h
    push_neg at h
    have hk : k' ≠ k := fun hh => h.1 hh.symm
    simp [mapDelete, hk, ih h.2]

theorem mapSet_of_not_mem {β : Type} (m : List (String × β)) (k : String) (v : β)
    (h : k ∉ m.map Prod.fst) : mapSet m k v = m ++ [(k, v)] := by
  induction m with
  | nil => rfl
  | cons p rest ih =>
    obtain ⟨k', v'⟩ := p
    simp only [List.map_cons, List.mem_cons] at h
    push_neg at h
    have hk : k' ≠ k := fun hh => h.1 hh.symm
    simp [mapSet, hk, ih h.2]

/-- C5: registering a component with base interval 1000 ms (with random draw
`r`, `0 ≤ r < 1`) and then starting it invokes the callback exactly once
synchronously, leaves exactly one active timer for that name (any prior timer
was cancelled first), and the timer's fixed period is
`baseIntervalMs + jitterOffsetMs = 1000 + r * 300`, which lies in the closed
interval [1000, 1300] ms. -/
theorem startPolling_immediate_once_and_period (s : PollingState) (name : String) (r : ℚ)
    (hr0 : 0 ≤ r) (hr1 : r < 1)
    (hnodup : (s.activeIntervals.map Prod.fst).Nodup) :
    (startPolling (registerComponent s name 1000 r).1 name).2 = 1 ∧
      mapGet (startPolling (registerComponent s name 1000 r).1 name).1.activeIntervals name =
        some (1000 + r * 300) ∧
      (((startPolling (registerComponent s name 1000 r).1 name).1.activeIntervals.map
          Prod.fst).count name) = 1 ∧
      (1000 : ℚ) ≤ 1000 + r * 300 ∧ (1000 : ℚ) + r * 300 ≤ 1300 := by
  have h300 : (1000 : ℚ) * (3 / 10) = 300 := by norm_num
  have hreg : mapGet (registerComponent s name 1000 r).1.componentConfigs name =
      some ⟨name, 1000, r * (1000 * (3 / 10))⟩ := mapGet_mapSet_self _ _ _
  have hstart : startPolling (registerComponent s name 1000 r).1 name =
      ({ componentConfigs := (registerComponent s name 1000 r).1.componentConfigs,
         activeIntervals := mapSet (mapDelete s.activeIntervals name) name
           (1000 + r * (1000 * (3 / 10))) }, 1) := by
    unfold startPolling
    rw [hreg]
    rfl
  rw [hstart]
  refine ⟨rfl, ?_, ?_, by linarith, by linarith⟩
  · rw [h300] at *
    exact mapGet_mapSet_self _ _ _
  · have hnot : name ∉ (mapDelete s.activeIntervals name).map Prod.fst :=
      not_mem_keys_mapDelete _ _ hnodup
    rw [mapSet_of_not_mem _ _ _ hnot]
    simp [List.count_append, List.count_eq_zero_of_not_mem hnot]

theorem startPolling_immediate_once_and_period_witness :
    (0 : ℚ) ≤ 1 / 2 ∧
      ((startPolling (registerComponent emptyState "X" 1000 (1 / 2)).1 "X").2 = 1 ∧
        mapGet (startPolling (registerComponent emptyState "X" 1000 (1 / 2)).1
            "X").1.activeIntervals "X" = some (1000 + (1 / 2) * 300) ∧
        (((startPolling (registerComponent emptyState "X" 1000 (1 / 2)).1
            "X").1.activeIntervals.map Prod.fst).count "X") = 1 ∧
        (1000 : ℚ) ≤ 1000 + (1 / 2) * 300 ∧ (1000 : ℚ) + (1 / 2) * 300 ≤ 1300) :=
  ⟨by norm_num,
    startPolling_immediate_once_and_period emptyState "X" (1 / 2)
      (by norm_num) (by norm_num) (by simp [emptyState])⟩

end StaggeredPolling

namespace StaggeredPolling

/-- C6 counterexample: after `register("X", 1000)`, `start("X", cb)` and then
`stop("X")`, the component's `PollRegistration` is still held in the
scheduler's registry (`componentConfigs`) — `stopPolling` deletes only the
`activeIntervals` entry — so the claim that stopping destroys the registration
is false; `getPollingStatus` still lists the component. -/
theorem stopPolling_keeps_registration :
    mapGet (stopPolling
        (startPolling (registerComponent emptyState "X" 1000 (1 / 2)).1 "X").1
        "X").componentConfigs "X" ≠ none ∧
      (getPollingStatus (stopPolling
        (startPolling (registerComponent emptyState "X" 1000 (1 / 2)).1 "X").1
        "X")).map Prod.fst = ["X"] := by
  constructor
  · decide
  · decide

/-- C6 (amended): `stop(componentName)` cancels the active timer for that name
if any (its `activeIntervals` entry is gone afterwards) and is idempotent (a
second stop, or a stop while not running, is a no-op on the state); but the
`PollRegistration` is not destroyed — `componentConfigs` is left untouched, so
the registration remains in the scheduler's registry until overwritten or the
process ends. -/
theorem stopPolling_cancels_idempotent (s : PollingState) (name : String)
    (hnodup : (s.activeIntervals.map Prod.fst).Nodup) :
    mapGet (stopPolling s name).activeIntervals name = none ∧
      stopPolling (stopPolling s name) name = stopPolling s name ∧
      (stopPolling s name).componentConfigs = s.componentConfigs := by
  have hnot : name ∉ (mapDelete s.activeIntervals name).map Prod.fst :=
    not_mem_keys_mapDelete _ _ hnodup
  refine ⟨mapGet_eq_none_of_not_mem _ _ hnot, ?_, rfl⟩
  show ({ componentConfigs := s.componentConfigs,
          activeIntervals := mapDelete (mapDelete s.activeIntervals name) name } :
        PollingState) = _
  rw [mapDelete_of_not_mem _ _ hnot]
  rfl

theorem stopPolling_cancels_idempotent_witness :
    ((((startPolling (registerComponent emptyState "X" 1000 (1 / 2)).1
        "X").1.activeIntervals.map Prod.fst).Nodup) ∧
      (mapGet (stopPolling
          (startPolling (registerComponent emptyState "X" 1000 (1 / 2)).1 "X").1
          "X").activeIntervals "X" = none ∧
        stopPolling (stopPolling
          (startPolling (registerComponent emptyState "X" 1000 (1 / 2)).1 "X").1 "X") "X" =
          stopPolling
            (startPolling (registerComponent emptyState "X" 1000 (1 / 2)).1 "X").1 "X" ∧
        (stopPolling
          (startPolling (registerComponent emptyState "X" 1000 (1 / 2)).1 "X").1
          "X").componentConfigs =
          (startPolling (registerComponent emptyState "X" 1000 (1 / 2)).1
            "X").1.componentConfigs)) :=
  ⟨by decide,
    stopPolling_cancels_idempotent
      (startPolling (registerComponent emptyState "X" 1000 (1 / 2)).1 "X").1 "X" (by decide)⟩

end StaggeredPolling

namespace BotLogsSocket

/-- C7: the reconnect delay scheduled after the n-th consecutive failure is
`min(baseDelay * 2^n, capDelayMs)` with `baseDelay = 1000` and
`capDelayMs = 10000`; consecutive delays are non-decreasing and never exceed
the cap. -/
theorem backoffDelay_monotone_capped (n : Nat) :
    backoffDelay n = min (1000 * 2 ^ n) 10000 ∧
      backoffDelay n ≤ backoffDelay (n + 1) ∧
      backoffDelay n ≤ 10000 := by
  refine ⟨rfl, ?_, Nat.min_le_right _ _⟩
  unfold backoffDelay
  have h : 1000 * 2 ^ n ≤ 1000 * 2 ^ (n + 1) :=
    Nat.mul_le_mul_left 1000 (Nat.pow_le_pow_right (by norm_num) (Nat.le_succ n))
  exact min_le_min h (le_refl _)

end BotLogsSocket

namespace SocketClient

theorem clientStep_givingUp {s : ClientState} (e : ClientEvent)
    (hgu : givingUp s) (h1 : e ≠ ClientEvent.manualReconnect)
    (h2 : e ≠ ClientEvent.connectSuccess) :
    givingUp (clientStep s e).1 ∧ (clientStep s e).2 = false := by
  have hA : s.connectionAttempts ≥ MAX_CONNECTION_ATTEMPTS := hgu
  cases e with
  | initializeSocket =>
    simp only [clientStep]
    rw [if_pos hA]
    exact ⟨hgu, rfl⟩
  | connectSuccess => exact absurd rfl h2
  | connectError =>
    refine ⟨?_, ?_⟩
    · show s.connectionAttempts + 1 ≥ MAX_CONNECTION_ATTEMPTS
      exact le_trans hA (Nat.le_succ _)
    · show decide (s.connectionAttempts < MAX_CONNECTION_ATTEMPTS - 1) = false
      apply decide_eq_false
      unfold MAX_CONNECTION_ATTEMPTS at hA ⊢
      omega
  | disconnectEvent => exact ⟨hgu, rfl⟩
  | manualReconnect => exact absurd rfl h1

theorem clientRun_givingUp {s : ClientState} (es : List ClientEvent)
    (hgu : givingUp s)
    (hes : ∀ e ∈ es, e ≠ ClientEvent.manualReconnect ∧ e ≠ ClientEvent.connectSuccess) :
    givingUp (clientRun s es).1 ∧ ∀ b ∈ (clientRun s es).2, b = false := by
  induction es generalizing s with
  | nil =>
    refine ⟨hgu, ?_⟩
    intro b hb
    simp [clientRun] at hb
  | cons e es ih =>
    have he := hes e (List.mem_cons_self _ _)
    have hes' : ∀ e' ∈ es, e' ≠ ClientEvent.manualReconnect ∧ e' ≠ ClientEvent.connectSuccess :=
      fun e' h' => hes e' (List.mem_cons_of_mem _ h')
    obtain ⟨hg', hb'⟩ := clientStep_givingUp e hgu he.1 he.2
    obtain ⟨ih1, ih2⟩ := ih hg' hes'
    refine ⟨ih1, ?_⟩
    intro b hb
    simp only [clientRun, List.mem_cons] at hb
    rcases hb with hb | hb
    · rw [hb, hb']
    · exact ih2 b hb

/-- C8: once the attempt counter has reached `MAX_CONNECTION_ATTEMPTS`, the
client is terminal: over any sequence of automatic events (initialize effect,
connect errors, disconnects — a transport connect success cannot occur since
no attempt is pending), no event starts or schedules a connection attempt and
the counter stays at or above the maximum; the manual Retry action
(`handleReconnect`) is the only transition that resets the counter to 0, and
it reconnects (re-enters connecting). -/
theorem givingUp_terminal (s : ClientState) (es : List ClientEvent)
    (hgu : givingUp s)
    (hes : ∀ e ∈ es, e ≠ ClientEvent.manualReconnect ∧ e ≠ ClientEvent.connectSuccess) :
    givingUp (clientRun s es).1 ∧
      (∀ b ∈ (clientRun s es).2, b = false) ∧
      (clientStep s ClientEvent.manualReconnect).1 = ⟨0, false⟩ ∧
      (clientStep s ClientEvent.manualReconnect).2 = true := by
  obtain ⟨h1, h2⟩ := clientRun_givingUp es hgu hes
  exact ⟨h1, h2, rfl, rfl⟩

theorem givingUp_terminal_witness :
    givingUp ⟨5, false⟩ ∧
      (givingUp (clientRun ⟨5, false⟩
          [ClientEvent.connectError, ClientEvent.disconnectEvent,
            ClientEvent.initializeSocket]).1 ∧
        (∀ b ∈ (clientRun ⟨5, false⟩
            [ClientEvent.connectError, ClientEvent.disconnectEvent,
              ClientEvent.initializeSocket]).2, b = false) ∧
        (clientStep ⟨5, false⟩ ClientEvent.manualReconnect).1 = ⟨0, false⟩ ∧
        (clientStep ⟨5, false⟩ ClientEvent.manualReconnect).2 = true) :=
  ⟨by decide,
    givingUp_terminal ⟨5, false⟩
      [ClientEvent.connectError, ClientEvent.disconnectEvent, ClientEvent.initializeSocket]
      (by decide) (by decide)⟩

end SocketClient

namespace MLDashboard

/-- C9: an inbound `ml_dashboard_update` event whose payload is missing or
whose `pair` differs from the currently selected pair is discarded by the
handler, leaving all four pieces of dashboard state (ML insights, learning
progress, feature importance, model performance) unchanged. -/
theorem mlDashboardUpdate_frame (selectedPair : String) (payload : Option UpdatePayload)
    (s : DashboardState)
    (h : payload = none ∨ ∃ p, payload = some p ∧ p.pair ≠ selectedPair) :
    mlDashboardUpdate selectedPair payload s = s := by
  rcases h with h | ⟨p, rfl, hp⟩
  · rw [h]
    rfl
  · simp only [mlDashboardUpdate]
    rw [if_pos hp]

theorem mlDashboardUpdate_frame_witness :
    (some (⟨"GBP_USD", none⟩ : UpdatePayload) = none ∨
      ∃ p, some (⟨"GBP_USD", none⟩ : UpdatePayload) = some p ∧ p.pair ≠ "EUR_USD") ∧
      mlDashboardUpdate "EUR_USD" (some ⟨"GBP_USD", none⟩) ⟨[], none, [], []⟩ =
        ⟨[], none, [], []⟩ :=
  ⟨Or.inr ⟨⟨"GBP_USD", none⟩, rfl, by decide⟩,
    mlDashboardUpdate_frame "EUR_USD" (some ⟨"GBP_USD", none⟩) ⟨[], none, [], []⟩
      (Or.inr ⟨⟨"GBP_USD", none⟩, rfl, by decide⟩)⟩

end MLDashboard

namespace BotLogFeed

theorem length_rtake_le {α : Type} (l : List α) (n : Nat) : (l.rtake n).length ≤ n := by
  rw [List.rtake_eq_reverse_take_reverse]
  simp only [List.length_reverse, List.length_take]
  exact Nat.min_le_left _ _

theorem rtake_of_length_le {α : Type} {l : List α} {n : Nat} (h : l.length ≤ n) :
    l.rtake n = l := by
  unfold List.rtake
  rw [Nat.sub_eq_zero_of_le h, List.drop_zero]

theorem rtake_append_rtake {α : Type} (xs ys : List α) (n : Nat) :
    (xs.rtake n ++ ys).rtake n = (xs ++ ys).rtake n := by
  have hrev : (xs.rtake n).reverse = xs.reverse.take n := by
    rw [List.rtake_eq_reverse_take_reverse, List.reverse_reverse]
  rw [List.rtake_eq_reverse_take_reverse (xs.rtake n ++ ys) n,
    List.rtake_eq_reverse_take_reverse (xs ++ ys) n]
  congr 1
  rw [List.reverse_append, List.reverse_append, hrev,
    List.take_append_eq_append_take, List.take_append_eq_append_take]
  congr 1
  rw [List.take_take]
  congr 1
  exact Nat.min_eq_left (Nat.sub_le _ _)

theorem foldl_botLogStep (events : List BotLog) (init : List BotLog)
    (hinit : init.length ≤ 100) :
    events.foldl botLogStep init = (init ++ events).rtake 100 := by
  induction events generalizing init with
  | nil =>
    simp only [List.foldl_nil, List.append_nil]
    exact (rtake_of_length_le hinit).symm
  | cons e es ih =>
    simp only [List.foldl_cons]
    have hlen : (botLogStep init e).length ≤ 100 := length_rtake_le _ _
    rw [ih (botLogStep init e) hlen]
    show ((init ++ [e]).rtake 100 ++ es).rtake 100 = _
    rw [rtake_append_rtake, List.append_assoc]
    rfl

/-- C10: for every sequence of inbound `bot_log` events, the stored log list
never exceeds 100 entries, and it is exactly the suffix of the most recent
100 events in arrival order (each event appended at the tail, oldest dropped
first). -/
theorem botLogs_keep_last_100 (events : List BotLog) :
    (runBotLogs events).length ≤ 100 ∧
      runBotLogs events = events.drop (events.length - 100) := by
  have h : runBotLogs events = events.rtake 100 := by
    unfold runBotLogs
    rw [foldl_botLogStep events [] (by decide)]
    rfl
  rw [h]
  exact ⟨length_rtake_le _ _, rfl⟩

end BotLogFeed
